import Mathlib

/-!
Shallow embedding of the agenttrace run/event tracing core
(src/agenttrace/db.py, src/agenttrace/tracer.py, src/agenttrace/viewer.py).

Modelling decisions, from the source:
* SQLite timestamps are ISO-8601 text produced by `datetime.utcnow().isoformat()`
  and compared lexicographically by `ORDER BY ts`; they are modelled as naturals
  drawn from a per-world clock that every timestamp read consumes and advances
  (an idealised monotone wall clock).  `time.time()` reads in the wrapper draw
  from the same clock.
* The SQLite database behind every connection is a single `DB` value: lists of
  `runs` and `steps` rows plus the AUTOINCREMENT counters (starting at 1).
  SQLite does *not* enforce the declared `FOREIGN KEY(run_id)` because the code
  never issues `PRAGMA foreign_keys=ON`; accordingly the step insert performs
  no membership check against `runs`.
* A `RunRecorder` owns one connection; `conn.close()` is the `connClosed` flag,
  and `sqlite3.ProgrammingError` ("Cannot operate on a closed database") is
  `Exc.closedConn`.  The `assert self.run_id is not None` in `log_step` is
  `Exc.assertFailed`.
* `json.dumps` either returns the encoded string or raises `TypeError`; a
  Python payload is modelled as `PyData`, carrying its encoding when it is
  serializable.  `json.loads` in the viewer is an arbitrary partial decoder
  parameter `loads`.
* Thread-local context plus Python control flow: a traced body is a state
  transformer over `(current recorder slot, world)` returning either a value
  or a raised exception; exceptions unwind but leave the mutated state behind.
-/

namespace AgentTrace

/-- A row of the `runs` table (db.py `_SCHEMA`): id, func_name, start_ts,
end_ts (NULL until the run is closed), git_sha. -/
structure Run where
  id : Nat
  func_name : String
  start_ts : Nat
  end_ts : Option Nat
  git_sha : String
deriving Repr, DecidableEq

/-- A row of the `steps` table (db.py `_SCHEMA`): id, run_id, ts, kind,
payload (the TEXT produced by `json.dumps`). -/
structure Step where
  id : Nat
  run_id : Nat
  ts : Nat
  kind : String
  payload : String
deriving Repr, DecidableEq

/-- The SQLite database: both tables plus their AUTOINCREMENT counters. -/
structure DB where
  runs : List Run
  steps : List Step
  nextRunId : Nat
  nextStepId : Nat
deriving Repr, DecidableEq

/-- Global mutable state shared by all connections: the database file and the
idealised monotone clock supplying `utcnow()` / `time.time()` readings. -/
structure World where
  db : DB
  clock : Nat
deriving Repr, DecidableEq

/-- One clock reading: returns the current time and advances the clock. -/
def World.now (w : World) : Nat × World :=
  (w.clock, ⟨w.db, w.clock + 1⟩)

/-- Python exceptions that can cross the tracing core's boundaries:
a user exception raised by the wrapped callable (identity = constructor
arguments), `TypeError` from `json.dumps`, `sqlite3.ProgrammingError` from
using a closed connection, and `AssertionError` from `log_step`'s assert. -/
inductive Exc where
  | user (tag : String) (msg : String)
  | typeError (msg : String)
  | closedConn
  | assertFailed
deriving Repr, DecidableEq

/-- A Python payload as seen by `json.dumps`: either serializable (carrying
its encoding) or not (carrying the `TypeError` message). -/
inductive PyData where
  | jsonable (enc : String)
  | unserializable (msg : String)
deriving Repr, DecidableEq

/-- `json.dumps`: returns the encoding or raises `TypeError` (tracer.py:26). -/
def json_dumps : PyData → Except Exc String
  | .jsonable enc => .ok enc
  | .unserializable msg => .error (.typeError msg)

/-- Whether `json.dumps` succeeds on this payload. -/
def PyData.serializable : PyData → Bool
  | .jsonable _ => true
  | .unserializable _ => false

/-- Python truthiness of `git_sha or "unknown"` (db.py:47): `None` and the
empty string both fall back to `"unknown"`. -/
def gitShaOr : Option String → String
  | none => "unknown"
  | some s => if s = "" then "unknown" else s

/-- The in-memory state of one `RunRecorder` (db.py:42-51): its constructor
arguments, the run id filled in by `__enter__`, and whether its private
connection has been closed. -/
structure RunRecorder where
  func_name : String
  git_sha : String
  run_id : Option Nat
  connClosed : Bool
deriving Repr, DecidableEq

/-- `RunRecorder.__init__` (db.py:45-51): stores the name, applies the
`git_sha or "unknown"` default, opens a fresh connection, no run id yet.
`init_db` (schema creation, idempotent) has no effect on the modelled state
because the two tables always exist in a `DB` value. -/
def RunRecorder.mkRecorder (funcName : String) (gitSha : Option String) : RunRecorder :=
  ⟨funcName, gitShaOr gitSha, none, false⟩

/-- `RunRecorder.__enter__` (db.py:53-61): INSERT one `runs` row with
`start_ts = utcnow()` and NULL `end_ts`, remember `lastrowid`. On a closed
connection `cursor.execute` would raise `ProgrammingError`. -/
def RunRecorder.enter (r : RunRecorder) (w : World) : Except Exc (RunRecorder × World) :=
  if r.connClosed then .error .closedConn
  else .ok ({ r with run_id := some w.db.nextRunId },
    { w with
      db := { w.db with
        runs := w.db.runs ++ [⟨w.db.nextRunId, r.func_name, w.clock, none, r.git_sha⟩],
        nextRunId := w.db.nextRunId + 1 },
      clock := w.clock + 1 })

/-- `RunRecorder.log_step` (db.py:63-69): `assert self.run_id is not None`,
then INSERT one `steps` row with `ts = utcnow()`.  The insert performs no
check that `run_id` names an existing run: the schema's FOREIGN KEY is never
enforced because the code never issues `PRAGMA foreign_keys=ON`. -/
def RunRecorder.log_step (r : RunRecorder) (kind : String) (payload : String) (w : World) :
    Except Exc World :=
  match r.run_id with
  | none => .error .assertFailed
  | some rid =>
    if r.connClosed then .error .closedConn
    else .ok { w with
      db := { w.db with
        steps := w.db.steps ++ [⟨w.db.nextStepId, rid, w.clock, kind, payload⟩],
        nextStepId := w.db.nextStepId + 1 },
      clock := w.clock + 1 }

/-- `RunRecorder.__exit__` (db.py:71-77): UPDATE the run's `end_ts` to
`utcnow()` (a `WHERE id=?` update, matching nothing when `run_id` is NULL),
commit, then close the connection.  On an already-closed connection the
UPDATE raises `ProgrammingError` immediately. -/
def RunRecorder.exit (r : RunRecorder) (w : World) : Except Exc (RunRecorder × World) :=
  if r.connClosed then .error .closedConn
  else .ok ({ r with connClosed := true },
    { w with
      db := { w.db with
        runs := w.db.runs.map fun run =>
          if some run.id = r.run_id then { run with end_ts := some w.clock } else run },
      clock := w.clock + 1 })

/-- `trace_event` (tracer.py:22-26): look up the thread-local recorder
(passed explicitly here); when none is active this is a silent no-op,
otherwise `recorder.log_step(event_type, json.dumps(data))` — with no
handler around the `json.dumps` call. -/
def trace_event (ctx : Option RunRecorder) (kind : String) (data : PyData) (w : World) :
    Except Exc World :=
  match ctx with
  | none => .ok w
  | some r =>
    match json_dumps data with
    | .error e => .error e
    | .ok enc => r.log_step kind enc w

/-- The thread-local slot together with the shared world: the state a traced
Python body runs in. -/
abbrev St := Option RunRecorder × World

/-- A traced body: Python code that may read/write the context slot and the
database, and either returns a value or raises. A raised exception unwinds
but the state mutations up to that point remain. -/
abbrev Body (β : Type) := St → Except Exc β × St

/-- The `function_start` payload of `traced.wrapper` (tracer.py:63-66):
`json.dumps` of a dict of the two truncated argument reprs, always
serializable; the exact dump text is abstracted by this encoder. -/
def startEnc (argsS kwargsS : String) : String :=
  "args=" ++ argsS.take 100 ++ ";kwargs=" ++ kwargsS.take 100

/-- The `function_start` payload as a `PyData` (always serializable). -/
def startData (argsS kwargsS : String) : PyData :=
  .jsonable (startEnc argsS kwargsS)

/-- The `function_end` payload of `traced.wrapper` (tracer.py:74-77):
duration and result type name, always serializable. -/
def endData (duration : Nat) (resultType : String) : PyData :=
  .jsonable ("duration=" ++ toString duration ++ ";result_type=" ++ resultType)

/-- An exception `e` escaping the `with recorder:` body: `__exit__` runs
first; if `__exit__` succeeds the original `e` propagates, if `__exit__`
itself raises, that exception propagates instead (tracer.py:60-82). -/
def closeOnRaise (r : RunRecorder) (e : Exc) (w : World) : Exc × World :=
  match r.exit w with
  | .ok p => (e, p.2)
  | .error e2 => (e2, w)

/-- The tail of `traced.wrapper` after the wrapped callable returns or
raises (tracer.py:70-82): on success read `time.time()`, emit `function_end`
via the *current* thread-local recorder, run `__exit__` on the wrapper's own
recorder, and return; on any exception run `__exit__` then re-raise. The
`finally` restoring the previous thread-local value is the `old` component
of every result. -/
def tracedCont {β : Type} (resultTypeName : β → String) (r1 : RunRecorder)
    (old : Option RunRecorder) (t1 : Nat) : Except Exc β × St → Except Exc β × St
  | (.error e, (_, w4)) =>
    let p := closeOnRaise r1 e w4
    (.error p.1, (old, p.2))
  | (.ok b, (ctx2, w4)) =>
    let tw2 := w4.now
    match trace_event ctx2 "function_end" (endData (tw2.1 - t1) (resultTypeName b)) tw2.2 with
    | .error e =>
      let p := closeOnRaise r1 e tw2.2
      (.error p.1, (old, p.2))
    | .ok w6 =>
      match r1.exit w6 with
      | .error e => (.error e, (old, w6))
      | .ok pr => (.ok b, (old, pr.2))

/-- `traced.wrapper` (tracer.py:49-82): build a fresh `RunRecorder`, save the
previous thread-local recorder, install the new one, enter the run, emit
`function_start`, read `time.time()`, run the body, then `tracedCont`.
`resultTypeName` models `type(result).__name__`; `argsS`/`kwargsS` model
`str(args)` / `str(kwargs)`. -/
def traced {β : Type} (funcName : String) (gitSha : Option String)
    (argsS kwargsS : String) (resultTypeName : β → String) (body : Body β) : Body β := fun s =>
  let old := s.1
  match (RunRecorder.mkRecorder funcName gitSha).enter s.2 with
  | .error e => (.error e, (old, s.2))
  | .ok rw =>
    match trace_event (some rw.1) "function_start" (startData argsS kwargsS) rw.2 with
    | .error e =>
      let p := closeOnRaise rw.1 e rw.2
      (.error p.1, (old, p.2))
    | .ok w2 =>
      let tw := w2.now
      tracedCont resultTypeName rw.1 old tw.1 (body (some rw.1, tw.2))

/-- A payload as the viewer returns it: decoded by `json.loads`, or the raw
stored text when decoding fails (viewer.py:38-42). -/
inductive PayloadView (J : Type) where
  | decoded (v : J)
  | raw (s : String)
deriving Repr, DecidableEq

/-- One element of the list returned by `get_steps`. -/
structure StepOut (J : Type) where
  id : Nat
  run_id : Nat
  ts : Nat
  kind : String
  payload : PayloadView J
deriving Repr, DecidableEq

/-- The per-row body of `get_steps`'s loop: try `json.loads` on the payload,
keep the raw text on failure (viewer.py:37-43). -/
def decodeRow {J : Type} (loads : String → Option J) (st : Step) : StepOut J :=
  ⟨st.id, st.run_id, st.ts, st.kind,
    match loads st.payload with
    | some v => .decoded v
    | none => .raw st.payload⟩

/-- `get_steps` (viewer.py:30-46): `SELECT * FROM steps WHERE run_id = ?
ORDER BY ts`, then decode each row's payload tolerantly.  The ORDER BY is a
stable sort on `ts` (insertion sort here). -/
def get_steps {J : Type} (loads : String → Option J) (rid : Nat) (db : DB) : List (StepOut J) :=
  (List.insertionSort (fun a b => a.ts ≤ b.ts)
    (db.steps.filter (fun st => st.run_id == rid))).map (decodeRow loads)

/-- A Python body that calls `trace_event` once per list element, in order,
stopping at the first raised exception. -/
def runEmits : List (String × PyData) → St → Except Exc Unit × St
  | [], s => (.ok (), s)
  | kd :: rest, s =>
    match trace_event s.1 kd.1 kd.2 s.2 with
    | .error e => (.error e, s)
    | .ok w' => runEmits rest (s.1, w')

/-- A traced body that emits the given events and returns `ret`
(e.g. `inner_function` of test_basic.py). -/
def emitsBody {β : Type} (evs : List (String × PyData)) (ret : β) : Body β := fun s =>
  match runEmits evs s with
  | (.error e, s') => (.error e, s')
  | (.ok _, s') => (.ok ret, s')

/-- A traced body that emits `pre`, invokes a callee (e.g. a wrapped inner
function), emits `post`, and returns `ret` (e.g. `outer_function` of
test_basic.py). -/
def outerBody {β γ : Type} (pre : List (String × PyData)) (callee : Body γ)
    (post : List (String × PyData)) (ret : β) : Body β := fun s =>
  match runEmits pre s with
  | (.error e, s') => (.error e, s')
  | (.ok _, s1) =>
    match callee s1 with
    | (.error e, s2) => (.error e, s2)
    | (.ok _, s2) =>
      match runEmits post s2 with
      | (.error e, s3) => (.error e, s3)
      | (.ok _, s3) => (.ok ret, s3)

/-- A body that immediately raises a user exception (e.g. `failing_function`
of test_basic.py raising `ValueError("Test error")`). -/
def failBody : Body Nat := fun s => (.error (.user "ValueError" "Test error"), s)

/-- The `runs` row inserted by `__enter__` of a recorder freshly built over
world `w0`. -/
def enteredRun (fn : String) (sha : Option String) (w0 : World) : Run :=
  ⟨w0.db.nextRunId, fn, w0.clock, none, gitShaOr sha⟩

/-- The recorder state right after `__enter__` inside `traced.wrapper`. -/
def startedRec (fn : String) (sha : Option String) (db : DB) : RunRecorder :=
  ⟨fn, gitShaOr sha, some db.nextRunId, false⟩

/-- The world right after `__enter__` of a fresh recorder. -/
def enterWorld (fn : String) (sha : Option String) (w0 : World) : World :=
  { w0 with
    db := { w0.db with
      runs := w0.db.runs ++ [enteredRun fn sha w0],
      nextRunId := w0.db.nextRunId + 1 },
    clock := w0.clock + 1 }

/-- The world the wrapped body starts in: after `__enter__`, the
`function_start` event, and the `time.time()` reading of `traced.wrapper`. -/
def startedWorld (fn : String) (sha : Option String) (argsS kwargsS : String) (w0 : World) :
    World :=
  { w0 with
    db := { w0.db with
      runs := w0.db.runs ++ [enteredRun fn sha w0],
      nextRunId := w0.db.nextRunId + 1,
      steps := w0.db.steps ++
        [⟨w0.db.nextStepId, w0.db.nextRunId, w0.clock + 1, "function_start",
          startEnc argsS kwargsS⟩],
      nextStepId := w0.db.nextStepId + 1 },
    clock := w0.clock + 3 }

/-- An empty freshly-initialised database world (what `init_db` leaves on a
new file), used to instantiate the general theorems. -/
def w0c : World := ⟨⟨[], [], 1, 1⟩, 0⟩

/-- A concrete `json.loads` model for instantiations: decodes only the text
`"good"`, fails on everything else. -/
def loadsC : String → Option Nat := fun s => if s = "good" then some 0 else none

/-- A concrete database with one run and two steps, the second step carrying
a payload `loadsC` cannot decode. -/
def dbC9 : DB := ⟨[⟨1, "f", 0, some 5, "unknown"⟩],
  [⟨1, 1, 1, "ok_event", "good"⟩, ⟨2, 1, 2, "oops", "corrupt"⟩], 2, 3⟩

/-- Helper: one invocation of `traced.wrapper` always reduces to its tail
`tracedCont` applied to the body run in the started recorder and world. -/
theorem traced_unfold {β : Type} (fn : String) (sha : Option String) (aS kS : String)
    (rtn : β → String) (body : Body β) (ctx0 : Option RunRecorder) (w0 : World) :
    traced fn sha aS kS rtn body (ctx0, w0) =
      tracedCont rtn (startedRec fn sha w0.db) ctx0 (w0.clock + 2)
        (body (some (startedRec fn sha w0.db), startedWorld fn sha aS kS w0)) := rfl

/-- Helper: a sequence of `trace_event` calls with an open recorder and
serializable payloads succeeds, leaves the context slot and the runs table
untouched, and appends one step per event, all under the recorder's run id. -/
theorem runEmits_ok (evs : List (String × PyData)) (r : RunRecorder) (rid : Nat)
    (hrid : r.run_id = some rid) (hopen : r.connClosed = false) :
    ∀ (w : World), (∀ kd ∈ evs, kd.2.serializable = true) →
    ∃ w' new, runEmits evs (some r, w) = (.ok (), (some r, w')) ∧
      w'.db.runs = w.db.runs ∧ w'.db.nextRunId = w.db.nextRunId ∧
      w'.db.steps = w.db.steps ++ new ∧ new.length = evs.length ∧
      ∀ st ∈ new, st.run_id = rid := by
  induction evs with
  | nil =>
    intro w _
    exact ⟨w, [], rfl, rfl, rfl, by simp, rfl, by simp⟩
  | cons kd rest ih =>
    intro w hser
    obtain ⟨enc, henc⟩ : ∃ enc, kd.2 = .jsonable enc := by
      cases h : kd.2 with
      | jsonable e => exact ⟨e, rfl⟩
      | unserializable m =>
        have := hser kd (by simp)
        rw [h] at this
        simp [PyData.serializable] at this
    have hrest : ∀ x ∈ rest, x.2.serializable = true := fun x hx => hser x (by simp [hx])
    have hte : trace_event (some r) kd.1 kd.2 w = .ok { w with
        db := { w.db with
          steps := w.db.steps ++ [⟨w.db.nextStepId, rid, w.clock, kd.1, enc⟩],
          nextStepId := w.db.nextStepId + 1 },
        clock := w.clock + 1 } := by
      simp [trace_event, henc, json_dumps, RunRecorder.log_step, hrid, hopen]
    obtain ⟨w', new, heq, hruns, hnid, hsteps, hlen, hmem⟩ := ih _ hrest
    refine ⟨w', ⟨w.db.nextStepId, rid, w.clock, kd.1, enc⟩ :: new, ?_, ?_, ?_, ?_, ?_, ?_⟩
    · simp only [runEmits, hte]
      exact heq
    · simpa using hruns
    · simpa using hnid
    · simp at hsteps
      simp [hsteps]
    · simp [hlen]
    · intro st hst
      rcases List.mem_cons.mp hst with h | h
      · simp [h]
      · exact hmem st h

/-- Helper: `log_step` on an entered, open recorder inserts exactly one
timestamped step row and advances the clock. -/
theorem log_step_ok (r : RunRecorder) (rid : Nat) (k p : String) (w : World)
    (hrid : r.run_id = some rid) (hopen : r.connClosed = false) :
    r.log_step k p w = .ok { w with
      db := { w.db with
        steps := w.db.steps ++ [⟨w.db.nextStepId, rid, w.clock, k, p⟩],
        nextStepId := w.db.nextStepId + 1 },
      clock := w.clock + 1 } := by
  simp [RunRecorder.log_step, hrid, hopen]

/-- Helper: `__exit__` on an open connection stamps `end_ts` on the rows
whose id matches the recorder's run id and closes the connection. -/
theorem exit_ok (r : RunRecorder) (w : World) (hopen : r.connClosed = false) :
    r.exit w = .ok ({ r with connClosed := true }, { w with
      db := { w.db with
        runs := w.db.runs.map fun run =>
          if some run.id = r.run_id then { run with end_ts := some w.clock } else run },
      clock := w.clock + 1 }) := by
  simp [RunRecorder.exit, hopen]

/-- Helper: the wrapper tail after a normal body return emits one
`function_end` step under the wrapper's run id, closes the wrapper's run,
and restores the saved context slot. -/
theorem tracedCont_ok {β : Type} (rtn : β → String) (r1 : RunRecorder) (rid : Nat)
    (old : Option RunRecorder) (t1 : Nat) (b : β) (w4 : World)
    (hrid : r1.run_id = some rid) (hopen : r1.connClosed = false) :
    ∃ w' endSt, tracedCont rtn r1 old t1 (.ok b, (some r1, w4)) = (.ok b, (old, w')) ∧
      w'.db.runs = w4.db.runs.map (fun run =>
        if run.id = rid then { run with end_ts := some (w4.clock + 2) } else run) ∧
      w'.db.nextRunId = w4.db.nextRunId ∧
      w'.db.steps = w4.db.steps ++ [endSt] ∧ endSt.run_id = rid := by
  have h1 : trace_event (some r1) "function_end"
      (endData (w4.clock - t1) (rtn b)) (⟨w4.db, w4.clock + 1⟩ : World) = .ok { w4 with
        db := { w4.db with
          steps := w4.db.steps ++
            [⟨w4.db.nextStepId, rid, w4.clock + 1, "function_end",
              "duration=" ++ toString (w4.clock - t1) ++ ";result_type=" ++ rtn b⟩],
          nextStepId := w4.db.nextStepId + 1 },
        clock := w4.clock + 2 } := by
    simp only [trace_event, endData, json_dumps]
    rw [log_step_ok r1 rid _ _ _ hrid hopen]
  have hall : tracedCont rtn r1 old t1 (.ok b, (some r1, w4)) = (.ok b, (old,
      ⟨⟨w4.db.runs.map (fun run =>
          if some run.id = r1.run_id then { run with end_ts := some (w4.clock + 2) } else run),
        w4.db.steps ++
          [⟨w4.db.nextStepId, rid, w4.clock + 1, "function_end",
            "duration=" ++ toString (w4.clock - t1) ++ ";result_type=" ++ rtn b⟩],
        w4.db.nextRunId, w4.db.nextStepId + 1⟩, w4.clock + 3⟩)) := by
    simp only [tracedCont, World.now, h1]
    rw [exit_ok _ _ hopen]
  refine ⟨_, _, hall, ?_, rfl, rfl, rfl⟩
  rw [hrid]
  simp only [Option.some.injEq]

/-- Helper: runs-table projection of `startedWorld`. -/
theorem startedWorld_runs (fn : String) (sha : Option String) (aS kS : String) (w : World) :
    (startedWorld fn sha aS kS w).db.runs = w.db.runs ++ [enteredRun fn sha w] := rfl

/-- Helper: next-run-id projection of `startedWorld`. -/
theorem startedWorld_nextRunId (fn : String) (sha : Option String) (aS kS : String) (w : World) :
    (startedWorld fn sha aS kS w).db.nextRunId = w.db.nextRunId + 1 := rfl

/-- Helper: steps-table projection of `startedWorld`. -/
theorem startedWorld_steps (fn : String) (sha : Option String) (aS kS : String) (w : World) :
    (startedWorld fn sha aS kS w).db.steps = w.db.steps ++
      [⟨w.db.nextStepId, w.db.nextRunId, w.clock + 1, "function_start", startEnc aS kS⟩] := rfl

/-- Helper: a whole traced call over an emit-only body succeeds, creates
exactly one new (closed) run named after the callable, appends only steps,
restores the caller's context slot, and leaves every other run untouched. -/
theorem traced_emits_run {γ : Type} (fn : String) (sha : Option String) (aS kS : String)
    (rtn : γ → String) (evs : List (String × PyData)) (ret : γ)
    (ctx0 : Option RunRecorder) (w : World)
    (hser : ∀ kd ∈ evs, kd.2.serializable = true) :
    ∃ w' new, traced fn sha aS kS rtn (emitsBody evs ret) (ctx0, w) = (.ok ret, (ctx0, w')) ∧
      w'.db.nextRunId = w.db.nextRunId + 1 ∧
      w'.db.runs.length = w.db.runs.length + 1 ∧
      w'.db.steps = w.db.steps ++ new ∧
      (∃ runB ∈ w'.db.runs, runB.id = w.db.nextRunId ∧ runB.func_name = fn ∧
        runB.end_ts.isSome = true) ∧
      (∀ run ∈ w.db.runs, run.id ≠ w.db.nextRunId → run ∈ w'.db.runs) := by
  rw [traced_unfold]
  obtain ⟨wE, new1, hEq, hruns, hnid, hsteps, hlen, hmem⟩ :=
    runEmits_ok evs (startedRec fn sha w.db) w.db.nextRunId rfl rfl
      (startedWorld fn sha aS kS w) hser
  have hbody : emitsBody evs ret (some (startedRec fn sha w.db), startedWorld fn sha aS kS w)
      = (.ok ret, (some (startedRec fn sha w.db), wE)) := by
    simp only [emitsBody, hEq]
  rw [hbody]
  obtain ⟨w', endSt, hC, hCruns, hCnid, hCsteps, hCrid⟩ :=
    tracedCont_ok rtn (startedRec fn sha w.db) w.db.nextRunId ctx0 (w.clock + 2) ret wE rfl rfl
  rw [hC]
  rw [hruns, startedWorld_runs] at hCruns
  rw [hnid, startedWorld_nextRunId] at hCnid
  rw [hsteps, startedWorld_steps] at hCsteps
  refine ⟨w', ⟨w.db.nextStepId, w.db.nextRunId, w.clock + 1, "function_start", startEnc aS kS⟩
      :: (new1 ++ [endSt]), rfl, hCnid, ?_, ?_, ?_, ?_⟩
  · rw [hCruns]
    simp
  · rw [hCsteps]
    simp
  · refine ⟨{ enteredRun fn sha w with end_ts := some (wE.clock + 2) }, ?_, ?_, ?_, ?_⟩
    · rw [hCruns]
      refine List.mem_map.mpr ⟨enteredRun fn sha w, by simp, ?_⟩
      simp [enteredRun]
    · simp [enteredRun]
    · simp [enteredRun]
    · simp
  · intro run hrun hne
    rw [hCruns]
    refine List.mem_map.mpr ⟨run, by simp [hrun], ?_⟩
    simp [hne]

/-- Claim C2 (confirmed): a traced function A that calls a traced function B
creates exactly two sessions in one invocation of A; after B returns the
context slot again holds A's recorder, so the events A emits after the call
(and A's own `function_end`) are recorded under A's run id, which differs
from B's run id. -/
theorem traced_nesting {β γ : Type} (fnA fnB : String) (shaA shaB : Option String)
    (aS kS aS2 kS2 : String) (rtnA : β → String) (rtnB : γ → String)
    (pre bs post : List (String × PyData)) (retA : β) (retB : γ)
    (ctx0 : Option RunRecorder) (w0 : World)
    (hpre : ∀ kd ∈ pre, kd.2.serializable = true)
    (hbs : ∀ kd ∈ bs, kd.2.serializable = true)
    (hpost : ∀ kd ∈ post, kd.2.serializable = true) :
    ∃ wF mid postSteps,
      traced fnA shaA aS kS rtnA
          (outerBody pre (traced fnB shaB aS2 kS2 rtnB (emitsBody bs retB)) post retA)
          (ctx0, w0)
        = (.ok retA, (ctx0, wF)) ∧
      wF.db.runs.length = w0.db.runs.length + 2 ∧
      (∃ runA ∈ wF.db.runs, runA.id = w0.db.nextRunId ∧ runA.func_name = fnA ∧
        runA.end_ts.isSome = true) ∧
      (∃ runB ∈ wF.db.runs, runB.id = w0.db.nextRunId + 1 ∧ runB.func_name = fnB ∧
        runB.end_ts.isSome = true) ∧
      wF.db.steps = w0.db.steps ++ mid ++ postSteps ∧
      postSteps.length = post.length + 1 ∧
      (∀ st ∈ postSteps, st.run_id = w0.db.nextRunId ∧ st.run_id ≠ w0.db.nextRunId + 1) := by
  rw [traced_unfold]
  obtain ⟨wP, preNew, hPreEq, hPreRuns, hPreNid, hPreSteps, hPreLen, hPreMem⟩ :=
    runEmits_ok pre (startedRec fnA shaA w0.db) w0.db.nextRunId rfl rfl
      (startedWorld fnA shaA aS kS w0) hpre
  obtain ⟨wB, bNew, hBEq, hBNid, hBLen, hBSteps, hBRunB, hBPres⟩ :=
    traced_emits_run fnB shaB aS2 kS2 rtnB bs retB (some (startedRec fnA shaA w0.db)) wP hbs
  obtain ⟨wQ, postNew, hPostEq, hPostRuns, hPostNid, hPostSteps, hPostLen, hPostMem⟩ :=
    runEmits_ok post (startedRec fnA shaA w0.db) w0.db.nextRunId rfl rfl wB hpost
  have hbody : outerBody pre (traced fnB shaB aS2 kS2 rtnB (emitsBody bs retB)) post retA
      (some (startedRec fnA shaA w0.db), startedWorld fnA shaA aS kS w0)
      = (.ok retA, (some (startedRec fnA shaA w0.db), wQ)) := by
    simp only [outerBody, hPreEq, hBEq, hPostEq]
  rw [hbody]
  obtain ⟨wF, endSt, hC, hCruns, hCnid, hCsteps, hCrid⟩ :=
    tracedCont_ok rtnA (startedRec fnA shaA w0.db) w0.db.nextRunId ctx0 (w0.clock + 2)
      retA wQ rfl rfl
  rw [hC]
  have hPnid : wP.db.nextRunId = w0.db.nextRunId + 1 := by
    rw [hPreNid, startedWorld_nextRunId]
  refine ⟨wF,
    ⟨w0.db.nextStepId, w0.db.nextRunId, w0.clock + 1, "function_start", startEnc aS kS⟩
      :: (preNew ++ bNew),
    postNew ++ [endSt], rfl, ?_, ?_, ?_, ?_, ?_, ?_⟩
  · rw [hCruns, hPostRuns]
    simp only [List.length_map]
    rw [hBLen, hPreRuns, startedWorld_runs]
    simp
  · refine ⟨{ enteredRun fnA shaA w0 with end_ts := some (wQ.clock + 2) }, ?_,
      by simp [enteredRun], by simp [enteredRun], by simp⟩
    rw [hCruns]
    refine List.mem_map.mpr ⟨enteredRun fnA shaA w0, ?_, by simp [enteredRun]⟩
    rw [hPostRuns]
    apply hBPres
    · rw [hPreRuns, startedWorld_runs]
      simp
    · rw [hPnid]
      simp [enteredRun]
  · obtain ⟨runB, hmemB, hidB, hnameB, hendB⟩ := hBRunB
    have hidB' : runB.id = w0.db.nextRunId + 1 := by
      rw [hidB, hPnid]
    refine ⟨runB, ?_, hidB', hnameB, hendB⟩
    rw [hCruns]
    refine List.mem_map.mpr ⟨runB, ?_, ?_⟩
    · rw [hPostRuns]
      exact hmemB
    · rw [if_neg (by omega)]
  · rw [hCsteps, hPostSteps, hBSteps, hPreSteps, startedWorld_steps]
    simp
  · simp [hPostLen]
  · intro st hst
    rcases List.mem_append.mp hst with h | h
    · have hrid := hPostMem st h
      exact ⟨hrid, by omega⟩
    · have hs : st = endSt := by simpa using h
      subst hs
      exact ⟨hCrid, by rw [hCrid]; omega⟩

/-- Claim C1 (confirmed): when the wrapped callable raises an exception `e`,
the wrapper closes the session (its `end_ts` is stamped with the close
time), restores the previously active recorder in the context slot, and
re-raises exactly `e`, unchanged. -/
theorem traced_reraises {β : Type} (fn : String) (sha : Option String) (aS kS : String)
    (rtn : β → String) (body : Body β) (ctx0 : Option RunRecorder) (w0 : World)
    (e : Exc) (ctx2 : Option RunRecorder) (w4 : World)
    (hbody : body (some (startedRec fn sha w0.db), startedWorld fn sha aS kS w0)
      = (.error e, (ctx2, w4)))
    (hrun : ∃ run ∈ w4.db.runs, run.id = w0.db.nextRunId) :
    ∃ w5, traced fn sha aS kS rtn body (ctx0, w0) = (.error e, (ctx0, w5)) ∧
      ∃ run ∈ w5.db.runs, run.id = w0.db.nextRunId ∧ run.end_ts = some w4.clock := by
  rw [traced_unfold, hbody]
  have hexit : (startedRec fn sha w0.db).exit w4 =
      .ok (⟨fn, gitShaOr sha, some w0.db.nextRunId, true⟩, { w4 with
        db := { w4.db with
          runs := w4.db.runs.map fun run =>
            if some run.id = some w0.db.nextRunId then { run with end_ts := some w4.clock }
            else run },
        clock := w4.clock + 1 }) := by
    simp [RunRecorder.exit, startedRec]
  have hcont : tracedCont rtn (startedRec fn sha w0.db) ctx0 (w0.clock + 2)
      (.error e, (ctx2, w4)) = (.error e, (ctx0, { w4 with
        db := { w4.db with
          runs := w4.db.runs.map fun run =>
            if some run.id = some w0.db.nextRunId then { run with end_ts := some w4.clock }
            else run },
        clock := w4.clock + 1 })) := by
    simp only [tracedCont, closeOnRaise, hexit]
  rw [hcont]
  obtain ⟨run, hmem, hid⟩ := hrun
  refine ⟨_, rfl, ⟨{ run with end_ts := some w4.clock }, ?_, by simp [hid], by simp⟩⟩
  exact List.mem_map.mpr ⟨run, hmem, by simp [hid]⟩

/-- Witness for claim C1: `failing_function` raising
`ValueError("Test error")` on a fresh database. -/
theorem traced_reraises_witness :
    ∃ w5, traced "failing_function" none "()" "" (fun _ => "int") failBody (none, w0c)
        = (.error (.user "ValueError" "Test error"), (none, w5)) ∧
      ∃ run ∈ w5.db.runs, run.id = 1 ∧ run.end_ts = some 3 :=
  traced_reraises "failing_function" none "()" "" (fun _ => "int") failBody none w0c
    (.user "ValueError" "Test error")
    (some (startedRec "failing_function" none w0c.db))
    (startedWorld "failing_function" none "()" "" w0c)
    rfl (by decide)

/-- Counterexample for claim C3: with an active recorder, emitting a payload
`json.dumps` cannot serialize raises the `TypeError` into the caller of
`trace_event`; no `encoding_error` placeholder event exists anywhere in the
code. -/
theorem emit_encoding_cex :
    trace_event (some ⟨"agent_step", "unknown", some 1, false⟩) "tool_output"
      (.unserializable "Object of type set is not JSON serializable")
      ⟨⟨[⟨1, "agent_step", 0, none, "unknown"⟩], [], 2, 1⟩, 1⟩
      = .error (.typeError "Object of type set is not JSON serializable") := rfl

/-- Claim C3 (corrected): an emit whose payload cannot be serialized
propagates the serialization failure (`TypeError`) into the user code that
called emit; because the call raises, no event row and no diagnostic
placeholder are recorded. -/
theorem emit_unserializable_raises (r : RunRecorder) (k m : String) (w : World) :
    trace_event (some r) k (.unserializable m) w = .error (.typeError m) := rfl

/-- Counterexample for claim C4: after a first successful close, a second
close is not a no-op — it raises `ProgrammingError` on the closed
connection. -/
theorem close_twice_cex :
    (RunRecorder.exit ⟨"test_function", "unknown", some 1, false⟩
        ⟨⟨[⟨1, "test_function", 0, none, "unknown"⟩], [], 2, 1⟩, 1⟩
      = .ok (⟨"test_function", "unknown", some 1, true⟩,
        ⟨⟨[⟨1, "test_function", 0, some 1, "unknown"⟩], [], 2, 1⟩, 2⟩)) ∧
    RunRecorder.exit ⟨"test_function", "unknown", some 1, true⟩
        ⟨⟨[⟨1, "test_function", 0, some 1, "unknown"⟩], [], 2, 1⟩, 2⟩
      = .error .closedConn := ⟨rfl, rfl⟩

/-- Claim C4 (corrected): after a first close, a second close always raises
`ProgrammingError` on the closed connection; since it fails before touching
the database, the end timestamp set by the first close is left unchanged. -/
theorem close_second_raises (r r2 : RunRecorder) (w w2 : World)
    (hexit : r.exit w = .ok (r2, w2)) :
    ∀ w', r2.exit w' = .error .closedConn := by
  intro w'
  cases hc : r.connClosed with
  | true => simp [RunRecorder.exit, hc] at hexit
  | false =>
    rw [exit_ok r w hc] at hexit
    simp only [Except.ok.injEq, Prod.mk.injEq] at hexit
    rw [← hexit.1]
    simp [RunRecorder.exit]

/-- Witness for claim C4 (corrected form): a concrete recorder closed once
and closed again. -/
theorem close_second_raises_witness :
    RunRecorder.exit ⟨"test_function", "unknown", some 1, true⟩ w0c = .error .closedConn :=
  close_second_raises ⟨"test_function", "unknown", some 1, false⟩
    ⟨"test_function", "unknown", some 1, true⟩
    ⟨⟨[⟨1, "test_function", 0, none, "unknown"⟩], [], 2, 1⟩, 1⟩
    ⟨⟨[⟨1, "test_function", 0, some 1, "unknown"⟩], [], 2, 1⟩, 2⟩
    rfl w0c

/-- Claim C5 (code bug): `log_step` on a recorder whose run id (5) names no
existing run succeeds and inserts the step row — the runs table is empty —
because the schema's FOREIGN KEY is declared but never enabled with
`PRAGMA foreign_keys=ON`; no `UnknownSessionError` is raised. -/
theorem append_unknown_session_inserts :
    RunRecorder.log_step ⟨"ghost", "unknown", some 5, false⟩ "llm_start" "p" w0c
      = .ok ⟨⟨[], [⟨1, 5, 0, "llm_start", "p"⟩], 1, 2⟩, 1⟩ ∧
    w0c.db.runs = [] := ⟨rfl, rfl⟩

/-- Claim C6 (confirmed): `trace_event` with no active recorder is a silent
no-op — it returns normally, raises nothing, and leaves the world (hence
the database) exactly as it was. -/
theorem emit_no_session_noop (k : String) (d : PyData) (w : World) :
    trace_event none k d w = .ok w := rfl

/-- Claim C10 (confirmed): after a recorder's close has run, any `log_step`
on it raises `ProgrammingError` on the closed connection and never returns
successfully, so no event row can be added to a finalized session through
its recorder. -/
theorem no_append_after_close (r r2 : RunRecorder) (w w2 : World)
    (hexit : r.exit w = .ok (r2, w2)) (hrid : r.run_id.isSome = true) :
    ∀ (k p : String) (w' : World), r2.log_step k p w' = .error .closedConn ∧
      ∀ wy, r2.log_step k p w' ≠ .ok wy := by
  intro k p w'
  cases hc : r.connClosed with
  | true => simp [RunRecorder.exit, hc] at hexit
  | false =>
    rw [exit_ok r w hc] at hexit
    simp only [Except.ok.injEq, Prod.mk.injEq] at hexit
    obtain ⟨rid, hr⟩ := Option.isSome_iff_exists.mp hrid
    constructor
    · rw [← hexit.1]
      simp [RunRecorder.log_step, hr]
    · intro wy hcon
      rw [← hexit.1] at hcon
      simp [RunRecorder.log_step, hr] at hcon

/-- Witness for claim C10: a concrete closed recorder rejecting a late
`log_step`. -/
theorem no_append_after_close_witness :
    RunRecorder.log_step ⟨"test_function", "unknown", some 1, true⟩ "late_event" "p" w0c
      = .error .closedConn :=
  (no_append_after_close ⟨"test_function", "unknown", some 1, false⟩
    ⟨"test_function", "unknown", some 1, true⟩
    ⟨⟨[⟨1, "test_function", 0, none, "unknown"⟩], [], 2, 1⟩, 1⟩
    ⟨⟨[⟨1, "test_function", 0, some 1, "unknown"⟩], [], 2, 1⟩, 2⟩
    rfl rfl "late_event" "p" w0c).1

/-- Claim C7 (confirmed): a session's end timestamp is absent immediately
after open; close stamps it with the close-time clock value, which is at
least the start timestamp whenever the clock has not gone backwards; after
the close, further close/append calls through the recorder fail, appends
never modify the runs table, and a close of any recorder bound to a
different run id leaves the run's row in place — so the end timestamp is
set exactly once and never changed. -/
theorem end_ts_lifecycle (fn : String) (sha : Option String) (w0 w' : World)
    (hmem : enteredRun fn sha w0 ∈ w'.db.runs) :
    ((RunRecorder.mkRecorder fn sha).enter w0
        = .ok (startedRec fn sha w0.db, enterWorld fn sha w0) ∧
      (enteredRun fn sha w0).end_ts = none ∧
      (enterWorld fn sha w0).db.runs = w0.db.runs ++ [enteredRun fn sha w0]) ∧
    (∃ r2 w2, (startedRec fn sha w0.db).exit w' = .ok (r2, w2) ∧
      { enteredRun fn sha w0 with end_ts := some w'.clock } ∈ w2.db.runs ∧
      (w0.clock ≤ w'.clock → (enteredRun fn sha w0).start_ts ≤ w'.clock) ∧
      (∀ w'', r2.exit w'' = .error .closedConn) ∧
      (∀ (w'' : World) (k p : String), r2.log_step k p w'' = .error .closedConn)) ∧
    (∀ (rx : RunRecorder) (wx wy : World) (k p : String),
      rx.log_step k p wx = .ok wy → wy.db.runs = wx.db.runs) ∧
    (∀ (rx ry : RunRecorder) (wx wy : World),
      rx.run_id ≠ some (enteredRun fn sha w0).id → rx.exit wx = .ok (ry, wy) →
      ∀ run ∈ wx.db.runs, run.id = (enteredRun fn sha w0).id → run ∈ wy.db.runs) := by
  refine ⟨⟨rfl, rfl, rfl⟩, ?_, ?_, ?_⟩
  · refine ⟨_, _, exit_ok _ _ rfl, ?_, ?_, ?_, ?_⟩
    · refine List.mem_map.mpr ⟨enteredRun fn sha w0, hmem, ?_⟩
      simp [enteredRun, startedRec]
    · intro h
      simpa [enteredRun] using h
    · intro w''
      simp [RunRecorder.exit]
    · intro w'' k p
      simp [RunRecorder.log_step, startedRec]
  · intro rx wx wy k p h
    cases hr : rx.run_id with
    | none => simp [RunRecorder.log_step, hr] at h
    | some rid =>
      cases hc : rx.connClosed with
      | true => simp [RunRecorder.log_step, hr, hc] at h
      | false =>
        rw [log_step_ok rx rid k p wx hr hc] at h
        simp only [Except.ok.injEq] at h
        rw [← h]
  · intro rx ry wx wy hneq h run hrun hid
    cases hc : rx.connClosed with
    | true => simp [RunRecorder.exit, hc] at h
    | false =>
      rw [exit_ok rx wx hc] at h
      simp only [Except.ok.injEq, Prod.mk.injEq] at h
      rw [← h.2]
      refine List.mem_map.mpr ⟨run, hrun, ?_⟩
      rw [if_neg]
      intro hcon
      apply hneq
      rw [← hcon, hid]

/-- Claim C8 (confirmed): when the stored steps carry strictly increasing
timestamps (which emission through the monotone clock guarantees),
`get_steps` returns exactly the session's events in emission (insertion)
order, and that order is non-decreasing in timestamp. -/
theorem listEvents_ordered {J : Type} (loads : String → Option J) (rid : Nat) (db : DB)
    (hts : db.steps.Pairwise (fun a b => a.ts < b.ts)) :
    get_steps loads rid db
        = (db.steps.filter (fun st => st.run_id == rid)).map (decodeRow loads) ∧
    List.Pairwise (fun a b => a.ts ≤ b.ts) (get_steps loads rid db) := by
  have hfil : (db.steps.filter (fun st => st.run_id == rid)).Pairwise
      (fun a b => a.ts < b.ts) :=
    hts.sublist (List.filter_sublist _)
  have hsorted : List.Sorted (fun a b : Step => a.ts ≤ b.ts)
      (db.steps.filter (fun st => st.run_id == rid)) :=
    hfil.imp (fun h => le_of_lt h)
  have heq : List.insertionSort (fun a b : Step => a.ts ≤ b.ts)
      (db.steps.filter (fun st => st.run_id == rid))
      = db.steps.filter (fun st => st.run_id == rid) := hsorted.insertionSort_eq
  constructor
  · rw [get_steps, heq]
  · rw [get_steps, heq, List.pairwise_map]
    exact hsorted

/-- Claim C9 (confirmed): `get_steps` never fails: it returns one entry per
stored event of the session regardless of payload corruption, every event
of the session appears in the listing, and an event whose payload does not
decode is returned with its raw encoded payload. -/
theorem listEvents_tolerant {J : Type} (loads : String → Option J) (rid : Nat) (db : DB) :
    (get_steps loads rid db).length
        = (db.steps.filter (fun st => st.run_id == rid)).length ∧
    (∀ st ∈ db.steps, st.run_id = rid → decodeRow loads st ∈ get_steps loads rid db) ∧
    (∀ st ∈ db.steps, st.run_id = rid → loads st.payload = none →
      (⟨st.id, st.run_id, st.ts, st.kind, .raw st.payload⟩ : StepOut J)
        ∈ get_steps loads rid db) := by
  have hperm := List.perm_insertionSort (fun a b : Step => a.ts ≤ b.ts)
    (db.steps.filter (fun st => st.run_id == rid))
  refine ⟨?_, ?_, ?_⟩
  · rw [get_steps, List.length_map]
    exact hperm.length_eq
  · intro st hst hrid
    rw [get_steps]
    exact List.mem_map_of_mem _
      (hperm.mem_iff.mpr (List.mem_filter.mpr ⟨hst, by simp [hrid]⟩))
  · intro st hst hrid hload
    have h1 : decodeRow loads st
        = (⟨st.id, st.run_id, st.ts, st.kind, .raw st.payload⟩ : StepOut J) := by
      simp [decodeRow, hload]
    rw [← h1, get_steps]
    exact List.mem_map_of_mem _
      (hperm.mem_iff.mpr (List.mem_filter.mpr ⟨hst, by simp [hrid]⟩))

/-- Witness for claim C2: the nested pair of test_basic.py's
`outer_function`/`inner_function` run on a fresh database. -/
theorem traced_nesting_witness :
    ∃ wF mid postSteps,
      traced "outer_function" none "(5,)" "" (fun _ : Nat => "int")
          (outerBody [("outer_start", .jsonable "in5")]
            (traced "inner_function" none "(5,)" "" (fun _ : Nat => "int")
              (emitsBody [("inner_processing", .jsonable "v5")] 10))
            [("outer_end", .jsonable "r10")] 10)
          (none, w0c)
        = (.ok 10, (none, wF)) ∧
      wF.db.runs.length = w0c.db.runs.length + 2 ∧
      (∃ runA ∈ wF.db.runs, runA.id = w0c.db.nextRunId ∧ runA.func_name = "outer_function" ∧
        runA.end_ts.isSome = true) ∧
      (∃ runB ∈ wF.db.runs, runB.id = w0c.db.nextRunId + 1 ∧
        runB.func_name = "inner_function" ∧ runB.end_ts.isSome = true) ∧
      wF.db.steps = w0c.db.steps ++ mid ++ postSteps ∧
      postSteps.length = [("outer_end", PyData.jsonable "r10")].length + 1 ∧
      (∀ st ∈ postSteps, st.run_id = w0c.db.nextRunId ∧ st.run_id ≠ w0c.db.nextRunId + 1) :=
  traced_nesting "outer_function" "inner_function" none none "(5,)" "" "(5,)" ""
    (fun _ => "int") (fun _ => "int")
    [("outer_start", .jsonable "in5")] [("inner_processing", .jsonable "v5")]
    [("outer_end", .jsonable "r10")] 10 10 none w0c
    (by decide) (by decide) (by decide)

/-- Witness for claim C7: open-then-immediately-close on a fresh database. -/
theorem end_ts_lifecycle_witness :
    ((RunRecorder.mkRecorder "test_function" none).enter w0c
        = .ok (startedRec "test_function" none w0c.db, enterWorld "test_function" none w0c) ∧
      (enteredRun "test_function" none w0c).end_ts = none ∧
      (enterWorld "test_function" none w0c).db.runs
        = w0c.db.runs ++ [enteredRun "test_function" none w0c]) ∧
    (∃ r2 w2, (startedRec "test_function" none w0c.db).exit
          (enterWorld "test_function" none w0c)
        = .ok (r2, w2) ∧
      { enteredRun "test_function" none w0c with
          end_ts := some (enterWorld "test_function" none w0c).clock } ∈ w2.db.runs ∧
      (w0c.clock ≤ (enterWorld "test_function" none w0c).clock →
        (enteredRun "test_function" none w0c).start_ts
          ≤ (enterWorld "test_function" none w0c).clock) ∧
      (∀ w'', r2.exit w'' = .error .closedConn) ∧
      (∀ (w'' : World) (k p : String), r2.log_step k p w'' = .error .closedConn)) ∧
    (∀ (rx : RunRecorder) (wx wy : World) (k p : String),
      rx.log_step k p wx = .ok wy → wy.db.runs = wx.db.runs) ∧
    (∀ (rx ry : RunRecorder) (wx wy : World),
      rx.run_id ≠ some (enteredRun "test_function" none w0c).id → rx.exit wx = .ok (ry, wy) →
      ∀ run ∈ wx.db.runs, run.id = (enteredRun "test_function" none w0c).id →
        run ∈ wy.db.runs) :=
  end_ts_lifecycle "test_function" none w0c (enterWorld "test_function" none w0c) (by decide)

/-- Witness for claim C8: a concrete two-event session. -/
theorem listEvents_ordered_witness :
    get_steps loadsC 1 dbC9
        = (dbC9.steps.filter (fun st => st.run_id == 1)).map (decodeRow loadsC) ∧
    List.Pairwise (fun a b => a.ts ≤ b.ts) (get_steps loadsC 1 dbC9) :=
  listEvents_ordered loadsC 1 dbC9 (by decide)

/-- Witness for claim C9: the corrupt second event of `dbC9` is listed with
its raw payload. -/
theorem listEvents_tolerant_witness :
    (⟨2, 1, 2, "oops", .raw "corrupt"⟩ : StepOut Nat) ∈ get_steps loadsC 1 dbC9 :=
  (listEvents_tolerant loadsC 1 dbC9).2.2 ⟨2, 1, 2, "oops", "corrupt"⟩
    (by decide) (by decide) (by decide)

end AgentTrace
